/-
Verification of the DNS manager (`src/DNS_Mgr.h`) against its
natural-language specification.

The repository ships only the header `DNS_Mgr.h`: a few operations are
defined inline there (`SetDir`, `CacheFile`, `AsyncRequest::IsAddrReq`,
`AsyncRequestCompare`), while the bodies of the remaining operations live
in a `DNS_Mgr.cc` that is not part of the sources.  Definitions embedding
inline header code are translated from that code; definitions for the
missing bodies are modelled from the specification and carry a doc
comment starting with `Modelled from the spec:`.
-/
import Mathlib

namespace DNSMgr

/-! ## The `AsyncRequest` record (inline in `DNS_Mgr.h`)

`struct AsyncRequest { double time; IPAddr addr; std::string host;
CallbackList callbacks; bool is_txt; bool processed; ... }`.
`time` is modelled as a rational, addresses as strings, callbacks as a
list of opaque identifiers. -/

structure AsyncRequest where
  time : ℚ := 0
  addr : String := ""
  host : String := ""
  callbacks : List Nat := []
  is_txt : Bool := false
  processed : Bool := false
deriving DecidableEq, Repr

/-- `bool IsAddrReq() const { return host.empty(); }` -/
def AsyncRequest.IsAddrReq (r : AsyncRequest) : Bool := r.host.isEmpty

/-- The three kinds of asynchronous requests, as distinguished by the
manager: an address (reverse) request, a name request, a text request. -/
inductive AsyncReqKind where
  | addrReq
  | nameReq
  | textReq
deriving DecidableEq, Repr

/-- Classification of an `AsyncRequest`, following the header's dispatch
data: address requests are recognized by `IsAddrReq`, and the remaining
requests are told apart by the `is_txt` flag. -/
def AsyncRequest.kind (r : AsyncRequest) : AsyncReqKind :=
  if r.IsAddrReq then .addrReq else if r.is_txt then .textReq else .nameReq

/-! ## The timeout priority queue (C8)

`struct AsyncRequestCompare { bool operator()(a, b) { return a->time > b->time; } };`
with `std::priority_queue<AsyncRequest*, std::vector<AsyncRequest*>, AsyncRequestCompare>`.
A C++ `priority_queue` pops a greatest element with respect to its
comparator; with this comparator the popped element has minimal `time`. -/

/-- `AsyncRequestCompare::operator()`: `a->time > b->time`. -/
def AsyncRequestCompare (a b : AsyncRequest) : Bool := a.time > b.time

/-- The element `std::priority_queue` yields on `top()`/`pop()`: a
greatest element with respect to `AsyncRequestCompare`, found by a scan
keeping the current best (`best` loses to `r` exactly when
`AsyncRequestCompare best r` holds). -/
def pqPop : AsyncRequest → List AsyncRequest → AsyncRequest
  | best, [] => best
  | best, r :: rest => pqPop (if AsyncRequestCompare best r then r else best) rest

/-! ## Mappings (C4, C6, C9)

`DNS_Mapping` is declared in the header and defined in the missing
`DNS_Mgr.cc`/`DNS_Mapping` sources; the record below follows the spec's
data model: creation timestamp, query key, TTL, failure flag, payload
(an address set for host mappings). -/

/-- Modelled from the spec (the `DNS_Mapping` class body is not under
`src/`): one cached answer — creation timestamp, query key, TTL in
seconds, failure flag, and an address-set payload. -/
structure DNS_Mapping where
  creation : ℚ := 0
  req_host : String := ""
  ttl : Nat := 0
  failed : Bool := false
  addrs : List String := []
deriving DecidableEq, Repr

/-- Modelled from the spec: `expired(m) = now ≥ m.creation + m.ttl`. -/
def DNS_Mapping.Expired (m : DNS_Mapping) (now : ℚ) : Prop :=
  now ≥ m.creation + m.ttl

instance (m : DNS_Mapping) (now : ℚ) : Decidable (m.Expired now) := by
  unfold DNS_Mapping.Expired; infer_instance

/-! ## Synchronous DEFAULT-mode host lookup (C4) -/

/-- Cache-and-counter state for the synchronous DEFAULT-mode lookup
path: the name cache plus the count of Requests submitted so far. -/
structure SyncLookupState where
  host_mappings : List (String × DNS_Mapping) := []
  requests_submitted : Nat := 0
deriving DecidableEq, Repr

/-- Modelled from the spec (the body of `LookupNameInCache` is not under
`src/`): returns the cached address set when a non-expired, non-failed
mapping exists for the name, and nothing otherwise. -/
def LookupNameInCache (st : SyncLookupState) (name : String) (now : ℚ) :
    Option (List String) :=
  match st.host_mappings.lookup name with
  | some m => if m.failed ∨ m.Expired now then none else some m.addrs
  | none => none

/-- Outcome of a synchronous lookup: either served from the cache, or a
new Request was submitted to the resolver. -/
inductive SyncOutcome where
  | fromCache (addrs : List String)
  | submitted
deriving DecidableEq, Repr

/-- Modelled from the spec (the body of the synchronous `LookupHost` is
not under `src/`): in DEFAULT mode, consult the cache; on hit return the
cached address set without touching the resolver; on miss submit a
Request (modelled as bumping the submitted-Requests counter). -/
def lookupHostDefault (st : SyncLookupState) (name : String) (now : ℚ) :
    SyncOutcome × SyncLookupState :=
  match LookupNameInCache st name now with
  | some addrs => (.fromCache addrs, st)
  | none => (.submitted, { st with requests_submitted := st.requests_submitted + 1 })

/-! ## Completion idempotence for a Request (C3) -/

/-- A completion signal from the stub-resolver library: either an answer
or a timeout. -/
inductive StubSignal where
  | resolvedSig
  | timeoutSig
deriving DecidableEq, Repr

/-- Terminal-delivery state of one Request: the `processed` flag and,
for each attached callback, how many terminal invocations (`Resolved` or
`Timeout`) it has received. -/
structure ReqCompletionState where
  processed : Bool := false
  deliveries : List Nat := []
deriving DecidableEq, Repr

/-- Modelled from the spec (the completion handlers
`CheckAsync*Request` / the c-ares callbacks are not under `src/`): a
completion signal for a Request already marked `processed` is discarded;
otherwise the Request is marked `processed` and every attached callback
receives exactly one terminal invocation. -/
def handleSignal (st : ReqCompletionState) (_s : StubSignal) : ReqCompletionState :=
  if st.processed then st
  else { processed := true, deliveries := st.deliveries.map (· + 1) }

/-- Fold a whole trace of completion signals into the Request state. -/
def runSignals (st : ReqCompletionState) (sigs : List StubSignal) : ReqCompletionState :=
  sigs.foldl handleSignal st

/-- A fresh Request with `ncbs` attached callbacks: not processed, no
terminal invocation delivered yet. -/
def initReqState (ncbs : Nat) : ReqCompletionState :=
  { processed := false, deliveries := List.replicate ncbs 0 }

/-! ## Cache directory and cache file path (C7) -/

/-- The `dir` and `cache_name` fields of `DNS_Mgr`. -/
structure MgrDirState where
  dir : String := ""
  cache_name : String := ""
deriving DecidableEq, Repr

/-- `void SetDir(const char* arg_dir) { dir = arg_dir; }` -/
def SetDir (st : MgrDirState) (arg_dir : String) : MgrDirState :=
  { st with dir := arg_dir }

/-- Modelled from the spec (the body of `InitPostScript`, which builds
`cache_name`, is not under `src/`): `cache_name` is the configured cache
file name (default `dns_cache`) inside `dir` (default: current working
directory, `.`). -/
def InitPostScript (st : MgrDirState) : MgrDirState :=
  { st with cache_name := (if st.dir = "" then "." else st.dir) ++ "/" ++ "dns_cache" }

/-- `std::string CacheFile() const { return cache_name; }` -/
def CacheFile (st : MgrDirState) : String := st.cache_name

/-! ## Flush (C9) -/

/-- Manager state relevant to `Flush`: the three mapping caches, the
on-disk cache file contents, not-yet-ingested request results, and a
count of processing rounds. -/
structure FlushMgrState where
  host_mappings : List (String × DNS_Mapping) := []
  addr_mappings : List (String × DNS_Mapping) := []
  text_mappings : List (String × DNS_Mapping) := []
  cache_file : List String := []
  pending_results : List (String × DNS_Mapping) := []
  rounds_processed : Nat := 0
deriving DecidableEq, Repr

/-- Modelled from the spec (the request-processing loop is not under
`src/`): one round of processing ingests any pending request results
into the caches. -/
def processOneRound (st : FlushMgrState) : FlushMgrState :=
  { st with
    host_mappings := st.host_mappings ++ st.pending_results
    pending_results := []
    rounds_processed := st.rounds_processed + 1 }

/-- Modelled from the spec and the header doc comment ("Attempts to
process one more round of requests and then flushes the mapping
caches"; the body of `Flush` is not under `src/`): process one more
round, then empty the three mapping caches; the cache file is not
written. -/
def Flush (st : FlushMgrState) : FlushMgrState :=
  let st1 := processOneRound st
  { st1 with host_mappings := [], addr_mappings := [], text_mappings := [] }

/-! ## Async request registry and coalescing (C2) -/

/-- A live entry of the async dedup registry: the request's kind, its
key, and the callbacks attached so far (in registration order). -/
structure RegEntry where
  kind : AsyncReqKind
  key : String
  callbacks : List Nat
deriving DecidableEq, Repr

/-- The dedup registry: `asyncs_addrs`, `asyncs_names` and
`asyncs_texts` viewed as one keyed collection of live Requests. -/
structure Registry where
  live : List RegEntry := []
deriving DecidableEq, Repr

/-- The live Request for `(k, key)`, if any. -/
def Registry.findLive (reg : Registry) (k : AsyncReqKind) (key : String) :
    Option RegEntry :=
  reg.live.find? (fun e => decide (e.kind = k ∧ e.key = key))

/-- Modelled from the spec (the async `LookupHost`/`LookupAddr`/`Lookup`
bodies are not under `src/`): a new async lookup whose `(kind, key)` is
already live attaches its callback to the existing Request; otherwise a
new Request carrying that single callback is registered. -/
def asyncLookup (reg : Registry) (k : AsyncReqKind) (key : String) (cb : Nat) :
    Registry :=
  match reg.findLive k key with
  | some _ =>
    { live := reg.live.map (fun e =>
        if e.kind = k ∧ e.key = key then { e with callbacks := e.callbacks ++ [cb] }
        else e) }
  | none => { live := reg.live ++ [⟨k, key, [cb]⟩] }

/-- Modelled from the spec (completion handling is not under `src/`):
once a Request completes it is removed from its dedup map. -/
def completeRequest (reg : Registry) (k : AsyncReqKind) (key : String) : Registry :=
  { live := reg.live.filter (fun e => !decide (e.kind = k ∧ e.key = key)) }

/-- An event touching the dedup registry. -/
inductive RegEvent where
  | lookupEv (k : AsyncReqKind) (key : String) (cb : Nat)
  | completeEv (k : AsyncReqKind) (key : String)
deriving DecidableEq, Repr

/-- One registry transition. -/
def regStep (reg : Registry) (ev : RegEvent) : Registry :=
  match ev with
  | .lookupEv k key cb => asyncLookup reg k key cb
  | .completeEv k key => completeRequest reg k key

/-- The registry reached from the empty initial registry by a trace. -/
def runReg (evs : List RegEvent) : Registry :=
  evs.foldl regStep { live := [] }

/-- At most one live Request per `(kind, key)`. -/
def Registry.AtMostOnePerKey (reg : Registry) : Prop :=
  reg.live.Pairwise (fun a b => ¬(a.kind = b.kind ∧ a.key = b.key))

/-! ## Concurrency ceiling and admission queue (C5) -/

/-- `MAX_PENDING_REQUESTS`: the concurrency ceiling on in-flight async
requests (default 20). -/
def MAX_PENDING_REQUESTS : Nat := 20

/-- Admission state: the in-flight count `asyncs_pending`, the FIFO
admission queue `asyncs_queued` (front first), and the requests handed
to the resolver so far, in submission order. -/
structure AdmissionState where
  asyncs_pending : Nat := 0
  asyncs_queued : List Nat := []
  submitted : List Nat := []
deriving DecidableEq, Repr

/-- The drain loop of `IssueAsyncRequests`: submit the front of the
queue while below the ceiling. -/
def issueLoop : Nat → List Nat → List Nat → Nat × List Nat × List Nat
  | pending, [], sub => (pending, [], sub)
  | pending, r :: rest, sub =>
    if pending < MAX_PENDING_REQUESTS then issueLoop (pending + 1) rest (sub ++ [r])
    else (pending, r :: rest, sub)

/-- Modelled from the spec and the header comment ("Issue as many queued
async requests as slots are available"; body not under `src/`). -/
def IssueAsyncRequests (st : AdmissionState) : AdmissionState :=
  { asyncs_pending := (issueLoop st.asyncs_pending st.asyncs_queued st.submitted).1
    asyncs_queued := (issueLoop st.asyncs_pending st.asyncs_queued st.submitted).2.1
    submitted := (issueLoop st.asyncs_pending st.asyncs_queued st.submitted).2.2 }

/-- Modelled from the spec (async lookup bodies not under `src/`): a
fresh Request is submitted immediately when below the ceiling, and
appended to the admission queue otherwise. -/
def admitNewRequest (st : AdmissionState) (r : Nat) : AdmissionState :=
  if st.asyncs_pending < MAX_PENDING_REQUESTS then
    { st with
      asyncs_pending := st.asyncs_pending + 1
      submitted := st.submitted ++ [r] }
  else { st with asyncs_queued := st.asyncs_queued ++ [r] }

/-- Modelled from the spec: a completion frees one in-flight slot and
then drains the admission queue up to the ceiling. -/
def completeOne (st : AdmissionState) : AdmissionState :=
  IssueAsyncRequests { st with asyncs_pending := st.asyncs_pending - 1 }

/-- An event touching the admission machinery. -/
inductive AdmissionEvent where
  | newReq (r : Nat)
  | completion
deriving DecidableEq, Repr

/-- One admission transition. -/
def admissionStep (st : AdmissionState) : AdmissionEvent → AdmissionState
  | .newReq r => admitNewRequest st r
  | .completion => completeOne st

/-- The admission state reached from the initial state by a trace. -/
def runAdmission (evs : List AdmissionEvent) : AdmissionState :=
  evs.foldl admissionStep {}

/-! ## AddResult merge semantics for a host-map entry (C6) -/

/-- One `HostMap` slot: `std::pair<DNS_Mapping*, DNS_Mapping*>` — the
previous and the current mapping, either possibly absent. -/
structure HostMapEntry where
  prev : Option DNS_Mapping := none
  curr : Option DNS_Mapping := none
deriving DecidableEq, Repr

/-- Modelled from the spec (the body of `AddResult` is not under
`src/`): ingesting an answer into a host-map slot.  With `merge` true
and a prior mapping present, the union of the payloads is stored with
the smaller TTL; with `merge` false the prior mapping is displaced and
becomes the "previous" element of the pair. -/
def AddResult (entry : HostMapEntry) (newm : DNS_Mapping) (merge : Bool) :
    HostMapEntry :=
  match entry.curr with
  | some old =>
    if merge then
      { entry with
        curr := some
          { old with addrs := old.addrs ∪ newm.addrs, ttl := min old.ttl newm.ttl } }
    else { prev := some old, curr := some newm }
  | none => { entry with curr := some newm }

/-! ## Cache file snapshot and round trip (C1)

Cache file format (spec §6): one record per line,
`<creation>\t<ttl>\t<req_type>\t<failed>\t<key>\t<payload>` with
`req_type ∈ \x7bA, AAAA, PTR, TXT\x7d`.  A file is modelled as its list
of records. -/

/-- The request type tag of a cache record. -/
inductive ReqType where
  | A
  | AAAA
  | PTR
  | TXT
deriving DecidableEq, Repr

/-- Sort position of a request type inside the snapshot. -/
def ReqType.idx : ReqType → Nat
  | .A => 0
  | .AAAA => 1
  | .PTR => 2
  | .TXT => 3

/-- Modelled from the spec (cache file format §6; the `Save`/`LoadCache`
bodies are not under `src/`): one record of the cache file. -/
structure CacheRecord where
  creation : Nat
  ttl : Nat
  req_type : ReqType
  failed : Bool
  key : String
  payload : String
deriving DecidableEq, Repr

/-- The `(req_type, key)` identity of a record: mapping equality is by
key plus type, and duplicates on load overwrite by this key. -/
def recKey (r : CacheRecord) : Nat × String := (r.req_type.idx, r.key)

/-- The spec's save order on records: by `(req_type, key)`. -/
def keyLE (a b : CacheRecord) : Prop :=
  a.req_type.idx < b.req_type.idx ∨
    (a.req_type.idx = b.req_type.idx ∧ a.key ≤ b.key)

instance : DecidableRel keyLE := fun a b => by
  unfold keyLE; infer_instance

instance : IsTotal CacheRecord keyLE := by
  constructor
  intro a b
  rcases Nat.lt_trichotomy a.req_type.idx b.req_type.idx with h | h | h
  · exact Or.inl (Or.inl h)
  · rcases le_total a.key b.key with hk | hk
    · exact Or.inl (Or.inr ⟨h, hk⟩)
    · exact Or.inr (Or.inr ⟨h.symm, hk⟩)
  · exact Or.inr (Or.inl h)

instance : IsTrans CacheRecord keyLE := by
  constructor
  intro a b c hab hbc
  rcases hab with hab | ⟨hab1, hab2⟩ <;> rcases hbc with hbc | ⟨hbc1, hbc2⟩
  · exact Or.inl (hab.trans hbc)
  · exact Or.inl (hbc1 ▸ hab)
  · exact Or.inl (hab1 ▸ hbc)
  · exact Or.inr ⟨hab1.trans hbc1, hab2.trans hbc2⟩

/-- Modelled from the spec: loading inserts records in file order; a
later record whose `(req_type, key)` already occurs overwrites the
earlier one. -/
def insertRecord (st : List CacheRecord) (r : CacheRecord) : List CacheRecord :=
  r :: st.filter (fun s => !decide (recKey s = recKey r))

/-- Modelled from the spec (the `LoadCache` body is not under `src/`):
read every record of the snapshot; duplicate keys on load overwrite. -/
def LoadCache (x : List CacheRecord) : List CacheRecord :=
  x.foldl insertRecord []

/-- Modelled from the spec (the `Save` body is not under `src/`): write
every stored record, sorted by `(req_type, key)`. -/
def Save (st : List CacheRecord) : List CacheRecord :=
  List.insertionSort keyLE st

/-- Sort normalization of a cache file: its records sorted by
`(req_type, key)`. -/
def sortNormalize (x : List CacheRecord) : List CacheRecord :=
  List.insertionSort keyLE x

/-- A valid cache file for the round-trip claim: every record carries a
distinct `(req_type, key)` (a duplicate would be overwritten on load). -/
def ValidCacheFile (x : List CacheRecord) : Prop :=
  x.Pairwise (fun a b => recKey a ≠ recKey b)

instance (x : List CacheRecord) : Decidable (ValidCacheFile x) := by
  unfold ValidCacheFile; infer_instance

end DNSMgr

open DNSMgr

/-! ## Lemmas -/

lemma pqPop_le_start (best : AsyncRequest) (l : List AsyncRequest) :
    (pqPop best l).time ≤ best.time := by
  induction l generalizing best with
  | nil => exact le_refl _
  | cons r rest ih =>
    simp only [pqPop]
    by_cases h : AsyncRequestCompare best r
    · simp only [h, if_pos]
      have := ih r
      have hlt : r.time < best.time := by
        simpa [AsyncRequestCompare] using h
      exact le_trans this (le_of_lt hlt)
    · simp only [h, if_neg, not_false_iff]
      exact ih best

lemma pqPop_le_mem (best : AsyncRequest) (l : List AsyncRequest)
    (x : AsyncRequest) (hx : x ∈ l) : (pqPop best l).time ≤ x.time := by
  induction l generalizing best with
  | nil => cases hx
  | cons r rest ih =>
    simp only [pqPop]
    rcases List.mem_cons.mp hx with hx | hx
    · rw [hx]
      by_cases h : AsyncRequestCompare best r
      · simp only [h, if_pos]
        exact pqPop_le_start r rest
      · simp only [h, if_neg, not_false_iff]
        have hle : best.time ≤ r.time := by
          simpa [AsyncRequestCompare, not_lt] using h
        exact le_trans (pqPop_le_start best rest) hle
    · by_cases h : AsyncRequestCompare best r
      · simp only [h, if_pos]
        exact ih r hx
      · simp only [h, if_neg, not_false_iff]
        exact ih best hx

lemma runSignals_processed (st : ReqCompletionState) (sigs : List StubSignal)
    (h : st.processed = true) : runSignals st sigs = st := by
  induction sigs with
  | nil => rfl
  | cons s rest ih =>
    simp only [runSignals, List.foldl_cons, handleSignal, h, if_pos]
    exact ih

/-! ## Claim theorems -/

/-- C8: The timeout queue of asynchronous Requests is ordered by
ascending deadline: popping the queue always yields a Request whose
`time` (deadline) is less than or equal to the `time` of every other
Request still in the queue. -/
theorem c8_timeout_queue_pops_min (best : AsyncRequest) (l : List AsyncRequest)
    (x : AsyncRequest) (hx : x ∈ best :: l) :
    (DNSMgr.pqPop best l).time ≤ x.time := by
  rcases List.mem_cons.mp hx with hx | hx
  · rw [hx]; exact pqPop_le_start best l
  · exact pqPop_le_mem best l x hx

/-- Witness for C8 at a concrete queue. -/
theorem c8_timeout_queue_pops_min_witness :
    (DNSMgr.pqPop { time := 5 } [{ time := 2 }, { time := 7 }]).time ≤
      (({ time := 2 } : DNSMgr.AsyncRequest)).time :=
  c8_timeout_queue_pops_min { time := 5 } [{ time := 2 }, { time := 7 }]
    { time := 2 } (by simp)

/-- C10: an `AsyncRequest` is classified as an address (reverse) request
exactly when its `host` string is empty — `IsAddrReq()` returns true iff
`host` is empty — so name requests and text requests both carry a
non-empty host key and are distinguished from each other only by the
`is_txt` flag. -/
theorem c10_addr_req_iff_host_empty (r : DNSMgr.AsyncRequest) :
    (r.IsAddrReq = true ↔ r.host = "") ∧
      (r.host ≠ "" →
        (r.kind = .textReq ↔ r.is_txt = true) ∧
          (r.kind = .nameReq ↔ r.is_txt = false)) := by
  constructor
  · simp [DNSMgr.AsyncRequest.IsAddrReq, String.isEmpty_iff]
  · intro hne
    have haddr : r.IsAddrReq = false := by
      simp only [DNSMgr.AsyncRequest.IsAddrReq, Bool.eq_false_iff, ne_eq,
        String.isEmpty_iff]
      exact hne
    constructor
    · cases htxt : r.is_txt <;>
        simp [DNSMgr.AsyncRequest.kind, haddr, htxt]
    · cases htxt : r.is_txt <;>
        simp [DNSMgr.AsyncRequest.kind, haddr, htxt]

/-- Witness for C10 at a concrete request. -/
theorem c10_addr_req_iff_host_empty_witness :
    (({ host := "example.com", is_txt := true } : DNSMgr.AsyncRequest).kind =
      .textReq) := by
  have h := c10_addr_req_iff_host_empty { host := "example.com", is_txt := true }
  exact (h.2 (by decide)).1.mpr (by rfl)

/-- C3: for every Request and every callback attached to it, exactly one
terminal invocation (`Resolved` or `Timeout`) is delivered to that
callback; once a Request's `processed` flag is set, any further
completion signal from the stub-resolver library is discarded and
triggers no additional callback invocation. -/
theorem c3_one_terminal_invocation_per_callback (ncbs : Nat)
    (sigs : List StubSignal) (hne : sigs ≠ []) :
    (∀ c ∈ (runSignals (initReqState ncbs) sigs).deliveries, c = 1) ∧
      (∀ (st : ReqCompletionState) (s : StubSignal), st.processed = true →
        handleSignal st s = st) := by
  constructor
  · cases sigs with
    | nil => exact absurd rfl hne
    | cons s rest =>
      intro c hc
      have h1 : handleSignal (initReqState ncbs) s =
          { processed := true, deliveries := List.replicate ncbs 1 } := by
        simp [handleSignal, initReqState, List.map_replicate]
      have h2 : runSignals (initReqState ncbs) (s :: rest) =
          { processed := true, deliveries := List.replicate ncbs 1 } := by
        have : runSignals (initReqState ncbs) (s :: rest) =
            runSignals (handleSignal (initReqState ncbs) s) rest := rfl
        rw [this, h1, runSignals_processed]
        rfl
      rw [h2] at hc
      exact List.eq_of_mem_replicate hc
  · intro st s h
    simp [handleSignal, h]

/-- Witness for C3: two callbacks, an answer followed by a late timeout
signal; the first callback's delivery count is exactly one. -/
theorem c3_one_terminal_invocation_per_callback_witness :
    (runSignals (initReqState 2)
        [StubSignal.resolvedSig, StubSignal.timeoutSig]).deliveries.headI = 1 :=
  (c3_one_terminal_invocation_per_callback 2
      [StubSignal.resolvedSig, StubSignal.timeoutSig] (by decide)).1 _ (by decide)

/-- C4: in DEFAULT mode, after a name has been resolved once, every
subsequent synchronous `LookupHost` for that name returns the cached
address set and submits no new Request, until the mapping's TTL has
elapsed; `expired(m)` at time `t` iff `t ≥ m.creation + m.ttl`. -/
theorem c4_cached_lookup_until_ttl (st : SyncLookupState) (name : String)
    (m : DNS_Mapping) (now : ℚ)
    (hm : st.host_mappings.lookup name = some m)
    (hok : m.failed = false)
    (httl : now < m.creation + m.ttl) :
    lookupHostDefault st name now = (.fromCache m.addrs, st) ∧
      (lookupHostDefault st name now).2.requests_submitted = st.requests_submitted ∧
      ¬ m.Expired now ∧
      (∀ (m' : DNS_Mapping) (t : ℚ), m'.Expired t ↔ t ≥ m'.creation + m'.ttl) := by
  have hnexp : ¬ m.Expired now := by
    simp only [DNS_Mapping.Expired, ge_iff_le, not_le]
    exact httl
  have hcache : LookupNameInCache st name now = some m.addrs := by
    simp [LookupNameInCache, hm, hok, hnexp]
  have hres : lookupHostDefault st name now = (.fromCache m.addrs, st) := by
    simp [lookupHostDefault, hcache]
  exact ⟨hres, by rw [hres], hnexp, fun m' t => Iff.rfl⟩

/-- Witness for C4 at a concrete cache state and time. -/
theorem c4_cached_lookup_until_ttl_witness :
    lookupHostDefault
        { host_mappings :=
            [("a.test",
              { creation := 100, req_host := "a.test", ttl := 300,
                addrs := ["192.0.2.5", "192.0.2.6"] })] }
        "a.test" 250 =
      (.fromCache ["192.0.2.5", "192.0.2.6"],
        { host_mappings :=
            [("a.test",
              { creation := 100, req_host := "a.test", ttl := 300,
                addrs := ["192.0.2.5", "192.0.2.6"] })] }) :=
  (c4_cached_lookup_until_ttl _ "a.test"
      { creation := 100, req_host := "a.test", ttl := 300,
        addrs := ["192.0.2.5", "192.0.2.6"] }
      250 (by decide) (by decide) (by norm_num)).1

/-- C7: `CacheFile()` returns the full filesystem path of the file used
to store the DNS cache: the configured cache file name located inside
the directory previously set with `SetDir` (default: current working
directory). -/
theorem c7_cache_file_full_path (st : MgrDirState) (d : String) (hd : d ≠ "") :
    CacheFile (InitPostScript (SetDir st d)) = d ++ "/" ++ "dns_cache" ∧
      CacheFile (InitPostScript { dir := "", cache_name := "" }) =
        "." ++ "/" ++ "dns_cache" := by
  constructor
  · simp [CacheFile, InitPostScript, SetDir, hd]
  · rfl

/-- Witness for C7 at a concrete directory. -/
theorem c7_cache_file_full_path_witness :
    CacheFile (InitPostScript (SetDir { dir := "", cache_name := "" } "/var/zeek")) =
      "/var/zeek" ++ "/" ++ "dns_cache" :=
  (c7_cache_file_full_path { dir := "", cache_name := "" } "/var/zeek"
      (by decide)).1

/-- C9: `Flush()` first attempts to process one more round of
outstanding requests, and only then empties all three mapping caches
(host, address, text); it never writes the cache file. -/
theorem c9_flush_processes_then_clears (st : FlushMgrState) :
    Flush st =
      { processOneRound st with
        host_mappings := [], addr_mappings := [], text_mappings := [] } ∧
      (Flush st).host_mappings = [] ∧
      (Flush st).addr_mappings = [] ∧
      (Flush st).text_mappings = [] ∧
      (Flush st).cache_file = st.cache_file ∧
      (Flush st).rounds_processed = st.rounds_processed + 1 :=
  ⟨rfl, rfl, rfl, rfl, rfl, rfl⟩

lemma regUpdate_kind (k : AsyncReqKind) (key : String) (cb : Nat) (x : RegEntry) :
    (if x.kind = k ∧ x.key = key then { x with callbacks := x.callbacks ++ [cb] }
      else x).kind = x.kind := by
  split <;> rfl

lemma regUpdate_key (k : AsyncReqKind) (key : String) (cb : Nat) (x : RegEntry) :
    (if x.kind = k ∧ x.key = key then { x with callbacks := x.callbacks ++ [cb] }
      else x).key = x.key := by
  split <;> rfl

lemma asyncLookup_preserves (reg : Registry) (k : AsyncReqKind) (key : String)
    (cb : Nat) (h : reg.AtMostOnePerKey) :
    (asyncLookup reg k key cb).AtMostOnePerKey := by
  unfold asyncLookup
  cases hf : reg.findLive k key with
  | some e =>
    simp only [Registry.AtMostOnePerKey] at h ⊢
    rw [List.pairwise_map]
    refine h.imp ?_
    intro a b hab hcontra
    rw [regUpdate_kind k key cb a, regUpdate_kind k key cb b] at hcontra
    rw [regUpdate_key k key cb a, regUpdate_key k key cb b] at hcontra
    exact hab hcontra
  | none =>
    simp only [Registry.AtMostOnePerKey] at h ⊢
    rw [List.pairwise_append]
    refine ⟨h, by simp, ?_⟩
    intro a ha b hb
    rw [List.mem_singleton] at hb
    subst hb
    have hnone := List.find?_eq_none.mp hf a ha
    simp only [decide_eq_true_eq] at hnone
    simpa using hnone

lemma completeRequest_preserves (reg : Registry) (k : AsyncReqKind) (key : String)
    (h : reg.AtMostOnePerKey) : (completeRequest reg k key).AtMostOnePerKey := by
  unfold completeRequest Registry.AtMostOnePerKey
  exact h.sublist (List.filter_sublist _)

lemma runReg_inv (evs : List RegEvent) (reg : Registry) (h : reg.AtMostOnePerKey) :
    (evs.foldl regStep reg).AtMostOnePerKey := by
  induction evs generalizing reg with
  | nil => exact h
  | cons ev rest ih =>
    simp only [List.foldl_cons]
    apply ih
    cases ev with
    | lookupEv k key cb => exact asyncLookup_preserves reg k key cb h
    | completeEv k key => exact completeRequest_preserves reg k key h

lemma find?_map_update (l : List RegEntry) (k : AsyncReqKind) (key : String)
    (cb : Nat) (e : RegEntry)
    (h : l.find? (fun x => decide (x.kind = k ∧ x.key = key)) = some e) :
    (l.map (fun x =>
        if x.kind = k ∧ x.key = key then { x with callbacks := x.callbacks ++ [cb] }
        else x)).find? (fun x => decide (x.kind = k ∧ x.key = key)) =
      some { e with callbacks := e.callbacks ++ [cb] } := by
  induction l with
  | nil => simp at h
  | cons a rest ih =>
    by_cases ha : a.kind = k ∧ a.key = key
    · rw [List.find?_cons_of_pos _ (by simpa using ha)] at h
      injection h with h
      subst h
      rw [List.map_cons, if_pos ha]
      exact List.find?_cons_of_pos _ (by simpa using ha)
    · rw [List.find?_cons_of_neg _ (by simpa using ha)] at h
      rw [List.map_cons, if_neg ha]
      rw [List.find?_cons_of_neg _ (by simpa using ha)]
      exact ih h

lemma issueLoop_spec (q : List Nat) : ∀ (pending : Nat) (sub : List Nat),
    issueLoop pending q sub =
      (pending + min (MAX_PENDING_REQUESTS - pending) q.length,
        q.drop (min (MAX_PENDING_REQUESTS - pending) q.length),
        sub ++ q.take (min (MAX_PENDING_REQUESTS - pending) q.length)) := by
  induction q with
  | nil => intro pending sub; simp [issueLoop]
  | cons r rest ih =>
    intro pending sub
    by_cases hp : pending < MAX_PENDING_REQUESTS
    · rw [issueLoop, if_pos hp, ih]
      have h1 : MAX_PENDING_REQUESTS - pending =
          (MAX_PENDING_REQUESTS - (pending + 1)) + 1 := by omega
      rw [h1]
      simp only [List.length_cons, Nat.succ_min_succ, List.drop_succ_cons,
        List.take_succ_cons, Prod.mk.injEq]
      refine ⟨by omega, by simp, by simp⟩
    · rw [issueLoop, if_neg hp]
      have h0 : MAX_PENDING_REQUESTS - pending = 0 := by omega
      simp [h0]

lemma issueLoop_pending_le (pending : Nat) (q sub : List Nat)
    (h : pending ≤ MAX_PENDING_REQUESTS) :
    (issueLoop pending q sub).1 ≤ MAX_PENDING_REQUESTS := by
  rw [issueLoop_spec]
  have := Nat.min_le_left (MAX_PENDING_REQUESTS - pending) q.length
  simp only
  omega

lemma admission_foldl_le (evs : List AdmissionEvent) (st : AdmissionState)
    (h : st.asyncs_pending ≤ MAX_PENDING_REQUESTS) :
    (evs.foldl admissionStep st).asyncs_pending ≤ MAX_PENDING_REQUESTS := by
  induction evs generalizing st with
  | nil => exact h
  | cons ev rest ih =>
    simp only [List.foldl_cons]
    apply ih
    cases ev with
    | newReq r =>
      show (admitNewRequest st r).asyncs_pending ≤ MAX_PENDING_REQUESTS
      unfold admitNewRequest
      by_cases hp : st.asyncs_pending < MAX_PENDING_REQUESTS
      · rw [if_pos hp]; simpa using hp
      · rw [if_neg hp]; exact h
    | completion =>
      show (completeOne st).asyncs_pending ≤ MAX_PENDING_REQUESTS
      unfold completeOne IssueAsyncRequests
      exact issueLoop_pending_le _ _ _
        (by show st.asyncs_pending - 1 ≤ MAX_PENDING_REQUESTS; omega)

/-- C2: for every (kind, key) pair, at every point in time there is at
most one live asynchronous Request for that key; a further async lookup
for a key that is already live attaches its callback to the existing
Request instead of creating a new one. -/
theorem c2_at_most_one_live_request (evs : List RegEvent) (k : AsyncReqKind)
    (key : String) (cb : Nat) (e : RegEntry)
    (h : (runReg evs).findLive k key = some e) :
    (runReg evs).AtMostOnePerKey ∧
      (asyncLookup (runReg evs) k key cb).live.length = (runReg evs).live.length ∧
      (asyncLookup (runReg evs) k key cb).findLive k key =
        some { e with callbacks := e.callbacks ++ [cb] } ∧
      (asyncLookup (runReg evs) k key cb).AtMostOnePerKey := by
  have hinv := runReg_inv evs { live := [] } (by simp [Registry.AtMostOnePerKey])
  refine ⟨hinv, ?_, ?_, asyncLookup_preserves _ _ _ _ hinv⟩
  · unfold asyncLookup
    rw [h]
    simp
  · unfold asyncLookup
    rw [h]
    exact find?_map_update _ k key cb e h

/-- Witness for C2: the second lookup for the live key `b.test` attaches
its callback to the existing Request. -/
theorem c2_at_most_one_live_request_witness :
    (asyncLookup (runReg [RegEvent.lookupEv .nameReq "b.test" 1])
        .nameReq "b.test" 2).findLive .nameReq "b.test" =
      some { kind := .nameReq, key := "b.test", callbacks := [1, 2] } :=
  (c2_at_most_one_live_request [RegEvent.lookupEv .nameReq "b.test" 1]
      .nameReq "b.test" 2 ⟨.nameReq, "b.test", [1]⟩ (by decide)).2.2.1

/-- C5: the number of in-flight asynchronous Requests never exceeds the
concurrency ceiling (default 20); a new Request over the ceiling is
placed on the admission queue, and after each completion queued Requests
are submitted in FIFO order (front of the queue first) until the ceiling
is reached again. -/
theorem c5_ceiling_and_fifo_drain (evs : List AdmissionEvent)
    (st st' : AdmissionState) (r : Nat)
    (hover : MAX_PENDING_REQUESTS ≤ st'.asyncs_pending) :
    (runAdmission evs).asyncs_pending ≤ MAX_PENDING_REQUESTS ∧
      admitNewRequest st' r = { st' with asyncs_queued := st'.asyncs_queued ++ [r] } ∧
      IssueAsyncRequests st =
        { asyncs_pending := st.asyncs_pending +
            min (MAX_PENDING_REQUESTS - st.asyncs_pending) st.asyncs_queued.length
          asyncs_queued := st.asyncs_queued.drop
            (min (MAX_PENDING_REQUESTS - st.asyncs_pending) st.asyncs_queued.length)
          submitted := st.submitted ++ st.asyncs_queued.take
            (min (MAX_PENDING_REQUESTS - st.asyncs_pending) st.asyncs_queued.length) } := by
  refine ⟨admission_foldl_le evs {} (Nat.zero_le _), ?_, ?_⟩
  · unfold admitNewRequest
    rw [if_neg (by omega)]
  · unfold IssueAsyncRequests
    rw [issueLoop_spec]

/-- Witness for C5: a saturated state queues the new Request; a
completion slot drains exactly one queued Request in FIFO order. -/
theorem c5_ceiling_and_fifo_drain_witness :
    IssueAsyncRequests
        { asyncs_pending := 19, asyncs_queued := [7, 8], submitted := [] } =
      { asyncs_pending := 20, asyncs_queued := [8], submitted := [7] } :=
  (c5_ceiling_and_fifo_drain []
      { asyncs_pending := 19, asyncs_queued := [7, 8], submitted := [] }
      { asyncs_pending := 20 } 3 (by decide)).2.2

/-- C6: when `AddResult` ingests an answer with `merge` true and a prior
Mapping exists for the same key and type, the stored Mapping's payload
is the union of the old and new payloads and its TTL is the smaller of
the two TTLs; when `merge` is false the prior Mapping is displaced, and
for a `HostMap` entry the displaced Mapping becomes the "previous"
element of the (previous, current) pair. -/
theorem c6_add_result_merge_semantics (entry : HostMapEntry)
    (old newm : DNS_Mapping) (h : entry.curr = some old) :
    AddResult entry newm true =
        { entry with
          curr := some
            { old with
              addrs := old.addrs ∪ newm.addrs
              ttl := min old.ttl newm.ttl } } ∧
      (∀ a : String, a ∈ old.addrs ∪ newm.addrs ↔ a ∈ old.addrs ∨ a ∈ newm.addrs) ∧
      AddResult entry newm false = { prev := some old, curr := some newm } := by
  refine ⟨?_, fun a => List.mem_union_iff, ?_⟩
  · unfold AddResult
    rw [h]
    rfl
  · unfold AddResult
    rw [h]
    rfl

/-- Witness for C6 at concrete mappings. -/
theorem c6_add_result_merge_semantics_witness :
    AddResult
        { curr := some { req_host := "d.test", ttl := 300, addrs := ["10.0.0.1"] } }
        { req_host := "d.test", ttl := 120, addrs := ["10.0.0.2"] } true =
      { curr := some
          { req_host := "d.test", ttl := 120,
            addrs := ["10.0.0.1"] ∪ ["10.0.0.2"] } } :=
  (c6_add_result_merge_semantics
      { curr := some { req_host := "d.test", ttl := 300, addrs := ["10.0.0.1"] } }
      { req_host := "d.test", ttl := 300, addrs := ["10.0.0.1"] }
      { req_host := "d.test", ttl := 120, addrs := ["10.0.0.2"] } rfl).1

lemma keyLE_antisymm_on (a b : CacheRecord) (h1 : keyLE a b) (h2 : keyLE b a) :
    recKey a = recKey b := by
  unfold keyLE at h1 h2
  unfold recKey
  rcases h1 with h1 | ⟨h1a, h1b⟩ <;> rcases h2 with h2 | ⟨h2a, h2b⟩
  · omega
  · omega
  · omega
  · exact Prod.ext h1a (le_antisymm h1b h2b)

lemma sorted_perm_distinct_eq : ∀ l₁ l₂ : List CacheRecord,
    List.Perm l₁ l₂ → l₁.Sorted keyLE → l₂.Sorted keyLE →
    l₁.Pairwise (fun a b => recKey a ≠ recKey b) → l₁ = l₂ := by
  intro l₁
  induction l₁ with
  | nil =>
    intro l₂ hp _ _ _
    exact (hp.symm.eq_nil).symm
  | cons a t ih =>
    intro l₂ hp hs1 hs2 hd
    cases l₂ with
    | nil => exact absurd hp.eq_nil (by simp)
    | cons b t₂ =>
      have ha2 : a ∈ b :: t₂ := hp.mem_iff.mp (List.mem_cons_self a t)
      have hb1 : b ∈ a :: t := hp.mem_iff.mpr (List.mem_cons_self b t₂)
      have hab : a = b := by
        rcases List.mem_cons.mp ha2 with h | h
        · exact h
        · rcases List.mem_cons.mp hb1 with h' | h'
          · exact h'.symm
          · have hle1 : keyLE a b := List.rel_of_sorted_cons hs1 b h'
            have hle2 : keyLE b a := List.rel_of_sorted_cons hs2 a h
            have hk := keyLE_antisymm_on a b hle1 hle2
            exact absurd hk ((List.pairwise_cons.mp hd).1 b h')
      subst hab
      have ht : List.Perm t t₂ := hp.cons_inv
      rw [ih t₂ ht hs1.of_cons hs2.of_cons (List.pairwise_cons.mp hd).2]

lemma foldl_insertRecord (x : List CacheRecord) : ∀ st : List CacheRecord,
    (∀ r ∈ x, ∀ s ∈ st, recKey s ≠ recKey r) →
    x.Pairwise (fun a b => recKey a ≠ recKey b) →
    x.foldl insertRecord st = x.reverse ++ st := by
  induction x with
  | nil => intro st _ _; simp
  | cons a rest ih =>
    intro st hdisj hpw
    simp only [List.foldl_cons]
    have hins : insertRecord st a = a :: st := by
      unfold insertRecord
      rw [List.filter_eq_self.mpr ?_]
      intro s hs
      simpa using hdisj a (List.mem_cons_self a rest) s hs
    rw [hins, ih (a :: st) ?_ (List.pairwise_cons.mp hpw).2]
    · rw [List.reverse_cons, List.append_assoc]
      rfl
    · intro r hr s hs
      rcases List.mem_cons.mp hs with hs | hs
      · rw [hs]
        exact (List.pairwise_cons.mp hpw).1 r hr
      · exact hdisj r (List.mem_cons_of_mem a hr) s hs

lemma loadCache_of_valid (x : List CacheRecord) (hv : ValidCacheFile x) :
    LoadCache x = x.reverse := by
  unfold LoadCache
  rw [foldl_insertRecord x [] (by intro r _ s hs; cases hs) hv]
  simp

/-- C1: for every valid cache file `x`, loading `x` with `LoadCache` and
then saving with `Save` produces a file equal to `x` after sort
normalization; `Save` always writes records sorted by `(req_type, key)`,
so the snapshot is deterministic. -/
theorem c1_save_load_round_trip (x st : List CacheRecord)
    (hv : ValidCacheFile x) :
    Save (LoadCache x) = sortNormalize x ∧ (Save st).Sorted keyLE := by
  refine ⟨?_, List.sorted_insertionSort keyLE st⟩
  have hperm1 : List.Perm (Save (LoadCache x)) x := by
    rw [loadCache_of_valid x hv]
    exact (List.perm_insertionSort keyLE _).trans (List.reverse_perm x)
  have hperm2 : List.Perm (sortNormalize x) x := List.perm_insertionSort keyLE x
  have hd1 : (Save (LoadCache x)).Pairwise (fun a b => recKey a ≠ recKey b) :=
    (List.Perm.pairwise_iff (fun hab h => hab h.symm) hperm1).mpr hv
  exact sorted_perm_distinct_eq _ _ (hperm1.trans hperm2.symm)
    (List.sorted_insertionSort keyLE _) (List.sorted_insertionSort keyLE x) hd1

/-- Witness for C1: a concrete two-record snapshot, stored out of order,
round-trips to its sort normalization. -/
theorem c1_save_load_round_trip_witness :
    Save (LoadCache
        [{ creation := 10, ttl := 60, req_type := .PTR, failed := false,
           key := "192.0.2.1", payload := "host.example" },
         { creation := 5, ttl := 300, req_type := .A, failed := false,
           key := "a.test", payload := "192.0.2.5,192.0.2.6" }]) =
      sortNormalize
        [{ creation := 10, ttl := 60, req_type := .PTR, failed := false,
           key := "192.0.2.1", payload := "host.example" },
         { creation := 5, ttl := 300, req_type := .A, failed := false,
           key := "a.test", payload := "192.0.2.5,192.0.2.6" }] :=
  (c1_save_load_round_trip
      [{ creation := 10, ttl := 60, req_type := .PTR, failed := false,
         key := "192.0.2.1", payload := "host.example" },
       { creation := 5, ttl := 300, req_type := .A, failed := false,
         key := "a.test", payload := "192.0.2.5,192.0.2.6" }]
      [] (by decide)).1
